import Mathlib

/-!
Shallow embedding of the NAI-Lore-Helper core (phrase-matching algebra,
configuration strategies and the entry-tree builder) together with proofs
about it.  JavaScript numbers are modelled as `Int` (all values involved are
integral), strings as `String`, partial configuration objects as structures
of `Option` fields (an absent or `undefined` property is `none`), and object
reference identity as an explicit allocation identifier field.
-/

namespace NAILore

/-! ## Phrase-matching algebra (matching.js) -/

/-- Constant `AC`: all characters. -/
def AC : String := "[\\s\\S]"

/-- Constant `B`: word boundary. -/
def B : String := "\\b"

/-- Constant `NWLB`: not word or line-break. -/
def NWLB : String := "[^\\w\\n]"

/-- Constant `OE`: open ended. -/
def OE : String := "\\w*?"

/-- Characters escaped by `escapeRegExp` (the class in its replace pattern). -/
def isRegExpSpecial (c : Char) : Bool :=
  c = '.' || c = '*' || c = '+' || c = '?' || c = '^' || c = '$' ||
  c = '\x7b' || c = '\x7d' || c = '(' || c = ')' || c = '|' ||
  c = '[' || c = ']' || c = '\\'

/-- Embeds `escapeRegExp`: prefix every special character with a backslash. -/
def escapeRegExp (value : String) : String :=
  String.mk (value.data.foldr
    (fun c acc => if isRegExpSpecial c then '\\' :: c :: acc else c :: acc) [])

/-- An escaped regular-expression part (the `EscapedRegex` object), identified
by the pattern fragment it carries (its `toString()`). -/
structure EscapedRegex where
  pattern : String
deriving Repr, DecidableEq

/-- Embeds `toEscaped`: wrap a pattern string. -/
def toEscaped (pattern : String) : EscapedRegex := ⟨pattern⟩

/-- The `toNAI()` method of an escaped regular-expression part. -/
def EscapedRegex.toNAI (e : EscapedRegex) : String := "/" ++ e.pattern ++ "/i"

/-- A binary phrase operator, closed over the operators defined in matching.js.
The extended operators `NEAR` and `BEYOND` carry their already-resolved
options (`NEAR` its `[lo, hi]` word range, `BEYOND` its `distance`) and the
`sameLine` flag. -/
inductive PhraseOp where
  | opAND
  | opEXCLUDING
  | opWITH
  | opWITHOUT
  | opNEAR (lo hi : Int) (sameLine : Bool)
  | opBEYOND (distance : Int) (sameLine : Bool)
deriving Repr, DecidableEq

/-- A `TLG.Matching.Phrase`: a native `RegExp` (only its source is kept), an
escaped phrase, a bare string, or a 3-tuple phrase expression. -/
inductive Phrase where
  | regex (source : String)
  | escaped (pattern : String)
  | str (s : String)
  | exp (left : Phrase) (op : PhraseOp) (right : Phrase)
deriving Repr, DecidableEq

/-- Embeds `LIT`: exact-match phrase. -/
def LIT (word : String) : EscapedRegex := toEscaped (B ++ escapeRegExp word ++ B)

/-- Embeds `PRE`: prefix phrase (default string coercion). -/
def PRE (word : String) : EscapedRegex := toEscaped (B ++ escapeRegExp word)

/-- Embeds `POST`: postfix phrase. -/
def POST (word : String) : EscapedRegex := toEscaped (OE ++ escapeRegExp word ++ B)

/-- Embeds `OPEN`: open-ended phrase. -/
def OPEN (word : String) : EscapedRegex := toEscaped (OE ++ escapeRegExp word)

/-- The pattern each binary operator builds from the two coerced fragments,
transcribed from the bodies of `AND`, `EXCLUDING`, `WITH`, `WITHOUT` and the
matchers returned by `NEAR` and `BEYOND`. -/
def opPattern : PhraseOp → String → String → String
  | .opAND, reLeft, reRight =>
      reLeft ++ "(?:" ++ ("(?=" ++ AC ++ "*?" ++ reRight ++ ")") ++ "|" ++
        ("(?<=" ++ reRight ++ AC ++ "*?" ++ reLeft ++ ")") ++ ")"
  | .opEXCLUDING, reLeft, reRight =>
      reLeft ++ ("(?!" ++ AC ++ "*?" ++ reRight ++ ")") ++
        ("(?<!" ++ reRight ++ AC ++ "*?" ++ reLeft ++ ")")
  | .opWITH, reLeft, reRight =>
      reLeft ++ "(?:" ++ ("(?=.*?" ++ reRight ++ ")") ++ "|" ++
        ("(?<=" ++ reRight ++ ".*?" ++ reLeft ++ ")") ++ ")"
  | .opWITHOUT, reLeft, reRight =>
      reLeft ++ ("(?!.*?" ++ reRight ++ ")") ++
        ("(?<!" ++ reRight ++ ".*?" ++ reLeft ++ ")")
  | .opNEAR lo hi sameLine, reLeft, reRight =>
      let NW := if sameLine then NWLB else "\\W"
      let sep := "(?:" ++ NW ++ "+\\w+)\x7b" ++ toString lo ++ "," ++ toString hi ++ "\x7d?\\W+"
      reLeft ++ "(?:" ++ ("(?=" ++ sep ++ reRight ++ ")") ++ "|" ++
        ("(?<=" ++ reRight ++ sep ++ reLeft ++ ")") ++ ")"
  | .opBEYOND distance sameLine, reLeft, reRight =>
      let NW := if sameLine then NWLB else "\\W"
      let sep := "(?:" ++ NW ++ "+\\w+)\x7b0," ++ toString distance ++ "\x7d?\\W+"
      reLeft ++ ("(?!" ++ sep ++ reRight ++ ")") ++
        ("(?<!" ++ reRight ++ sep ++ reLeft ++ ")")

/-- Embeds `asEscaped` (and, in the `exp` case, `evalExp`): coerce a phrase to
an escaped regular-expression part. -/
def asEscaped : Phrase → EscapedRegex
  | .regex source => toEscaped source
  | .exp left op right =>
      toEscaped (opPattern op (asEscaped left).pattern (asEscaped right).pattern)
  | .escaped pattern => ⟨pattern⟩
  | .str s => PRE s

/-- View of an escaped part back as a phrase (passing an `EscapedRegex` object
where a `Phrase` is expected). -/
def EscapedRegex.toPhrase (e : EscapedRegex) : Phrase := .escaped e.pattern

/-- Embeds `evalExp` on a 3-tuple phrase expression. -/
def evalExp (left : Phrase) (op : PhraseOp) (right : Phrase) : EscapedRegex :=
  asEscaped (.exp left op right)

/-- Embeds the binary operator `AND` (document conjunction). -/
def AND (left right : Phrase) : EscapedRegex := evalExp left .opAND right

/-- Embeds the binary operator `EXCLUDING` (document exclusion). -/
def EXCLUDING (left right : Phrase) : EscapedRegex := evalExp left .opEXCLUDING right

/-- Embeds the binary operator `WITH` (line conjunction). -/
def WITH (left right : Phrase) : EscapedRegex := evalExp left .opWITH right

/-- Embeds the binary operator `WITHOUT` (line exclusion). -/
def WITHOUT (left right : Phrase) : EscapedRegex := evalExp left .opWITHOUT right

/-- Embeds `ALT`: non-capturing alternation of any number of phrases. -/
def ALT (alternates : List Phrase) : EscapedRegex :=
  toEscaped ("(?:" ++ String.intercalate "|" (alternates.map (fun alt => (asEscaped alt).pattern)) ++ ")")

/-- The `range` argument accepted by the `NEAR` factory: a number, an array,
or any other value shape. -/
inductive RangeArg where
  | num (n : Int)
  | arr (xs : List Int)
  | other
deriving Repr, DecidableEq

/-- Embeds the range-resolution block of the `NEAR` factory (the labelled
`checks:` block): a non-positive scalar gives `[0, 0]`, a positive scalar
`[0, range]`, a two-element array `[min, max]`; anything else is a
`TypeError`. -/
def nearRange : RangeArg → Except String (Int × Int)
  | .num n => if n ≤ 0 then .ok (0, 0) else .ok (0, n)
  | .arr xs =>
      match xs with
      | [a, b] => .ok (min a b, max a b)
      | _ => .error "TypeError: Not valid for range"
  | .other => .error "TypeError: Not valid for range"

/-- Embeds the `NEAR` extended-operator factory: resolve the range (possibly
throwing), then return the matcher. -/
def NEAR (range : RangeArg := .num 10) (sameLine : Bool := true) :
    Except String (Phrase → Phrase → EscapedRegex) :=
  (nearRange range).map (fun lohi =>
    fun left right => evalExp left (.opNEAR lohi.1 lohi.2 sameLine) right)

/-- Embeds the `BEYOND` extended-operator factory (no validation of the
distance is performed). -/
def BEYOND (distance : Int := 10) (sameLine : Bool := true) :
    Phrase → Phrase → EscapedRegex :=
  fun left right => evalExp left (.opBEYOND distance sameLine) right

/-! ### The NovelAI regular-expression import (`reNaiRegex` / `REGEX`)

The anchored JavaScript pattern is `^\/(.*)\/[ismu]*$` (no `s` flag, so `.`
excludes line terminators).  `greedyCapture` is a direct backtracking matcher
for the part after the leading slash: it prefers to feed each character to the
greedy `(.*)` group, falling back to treating a `/` as the closing delimiter
followed only by flag characters. -/

/-- Characters admitted by the `[ismu]*` flags tail. -/
def isFlagChar (c : Char) : Bool := c = 'i' || c = 's' || c = 'm' || c = 'u'

/-- Characters matched by `.` in a JavaScript regex without the `s` flag. -/
def isDotChar (c : Char) : Bool :=
  !(c = '\n' || c = '\r' || c = '\u2028' || c = '\u2029')

/-- Greedy matcher for `(.*)\/[ismu]*$`, returning the captured group. -/
def greedyCapture : List Char → Option (List Char)
  | [] => none
  | c :: cs =>
      if isDotChar c then
        match greedyCapture cs with
        | some g => some (c :: g)
        | none => if c = '/' && cs.all isFlagChar then some [] else none
      else
        if c = '/' && cs.all isFlagChar then some [] else none

/-- Embeds `reNaiRegex.exec`: the captured pattern text, when the string
matches `^\/(.*)\/[ismu]*$`. -/
def reNaiExec (s : String) : Option String :=
  match s.data with
  | '/' :: rest => (greedyCapture rest).map (fun g => String.mk g)
  | _ => none

/-- Embeds `isNaiRegex` (`reNaiRegex.test`). -/
def isNaiRegex (s : String) : Bool := (reNaiExec s).isSome

/-- Embeds `REGEX`: succeed with the captured pattern, or throw. -/
def REGEX (regex : String) : Except String EscapedRegex :=
  match reNaiExec regex with
  | some g => .ok (toEscaped g)
  | none => .error ("Not compatible with NovelAI regular-expressions: " ++ regex)

/-- Specification of the strings accepted by `reNaiRegex`: a `/`-wrapped
pattern of dot-matchable characters followed by flag characters. -/
def DelimitedForm (s : String) : Prop :=
  ∃ g flags : List Char,
    s.data = '/' :: g ++ '/' :: flags ∧ g.all isDotChar ∧ flags.all isFlagChar

/-! ## Configuration model (global.d.ts / _naiDefaults.js)

Full configurations mirror `NAI.ContextConfig` and `NAI.LoreEntryConfig`;
partial configurations have one `Option` field per property.  The `prefix`
and `suffix` properties are named `prefixText` / `suffixText` here. -/

/-- A full `NAI.ContextConfig`. -/
structure ContextConfig where
  prefixText : String
  suffixText : String
  tokenBudget : Int
  reservedTokens : Int
  budgetPriority : Int
  trimDirection : String
  insertionType : String
  maximumTrimType : String
  insertionPosition : Int
deriving Repr, DecidableEq

/-- A `Partial<NAI.ContextConfig>` object. -/
structure PartialContextConfig where
  prefixText : Option String := none
  suffixText : Option String := none
  tokenBudget : Option Int := none
  reservedTokens : Option Int := none
  budgetPriority : Option Int := none
  trimDirection : Option String := none
  insertionType : Option String := none
  maximumTrimType : Option String := none
  insertionPosition : Option Int := none
deriving Repr, DecidableEq

/-- Spread-merge `{ ...base, ...o }` of a partial context config over a full
one. -/
def ContextConfig.merge (base : ContextConfig) (o : PartialContextConfig) : ContextConfig where
  prefixText := o.prefixText.getD base.prefixText
  suffixText := o.suffixText.getD base.suffixText
  tokenBudget := o.tokenBudget.getD base.tokenBudget
  reservedTokens := o.reservedTokens.getD base.reservedTokens
  budgetPriority := o.budgetPriority.getD base.budgetPriority
  trimDirection := o.trimDirection.getD base.trimDirection
  insertionType := o.insertionType.getD base.insertionType
  maximumTrimType := o.maximumTrimType.getD base.maximumTrimType
  insertionPosition := o.insertionPosition.getD base.insertionPosition

/-- Whether a partial context config has any property (`Object.keys(...).length > 0`). -/
def PartialContextConfig.hasAnyKey (c : PartialContextConfig) : Bool :=
  c.prefixText.isSome || c.suffixText.isSome || c.tokenBudget.isSome ||
  c.reservedTokens.isSome || c.budgetPriority.isSome || c.trimDirection.isSome ||
  c.insertionType.isSome || c.maximumTrimType.isSome || c.insertionPosition.isSome

/-- Embeds the `fixedContext` computation of `DepthDelta.apply`: drop
`budgetPriority`; keep the rest only when non-empty. -/
def PartialContextConfig.stripBudgetPriority (c : PartialContextConfig) :
    Option PartialContextConfig :=
  let rest := { c with budgetPriority := none }
  if rest.hasAnyKey then some rest else none

/-- A full `NAI.LoreEntryConfig`. -/
structure LoreEntryConfig where
  searchRange : Int
  enabled : Bool
  forceActivation : Bool
  keyRelative : Bool
  nonStoryActivatable : Bool
deriving Repr, DecidableEq

/-- A `Partial<NAI.LoreEntryConfig>` object. -/
structure PartialLoreEntryConfig where
  searchRange : Option Int := none
  enabled : Option Bool := none
  forceActivation : Option Bool := none
  keyRelative : Option Bool := none
  nonStoryActivatable : Option Bool := none
deriving Repr, DecidableEq

/-- Spread-merge `{ ...base, ...o }` of a partial entry config over a full
one. -/
def LoreEntryConfig.merge (base : LoreEntryConfig) (o : PartialLoreEntryConfig) : LoreEntryConfig where
  searchRange := o.searchRange.getD base.searchRange
  enabled := o.enabled.getD base.enabled
  forceActivation := o.forceActivation.getD base.forceActivation
  keyRelative := o.keyRelative.getD base.keyRelative
  nonStoryActivatable := o.nonStoryActivatable.getD base.nonStoryActivatable

/-- Whether a partial entry config has any property. -/
def PartialLoreEntryConfig.hasAnyKey (c : PartialLoreEntryConfig) : Bool :=
  c.searchRange.isSome || c.enabled.isSome || c.forceActivation.isSome ||
  c.keyRelative.isSome || c.nonStoryActivatable.isSome

/-- Embeds the `fixedEntry` computation of `DepthDelta.apply`: drop
`searchRange`; keep the rest only when non-empty. -/
def PartialLoreEntryConfig.stripSearchRange (c : PartialLoreEntryConfig) :
    Option PartialLoreEntryConfig :=
  let rest := { c with searchRange := none }
  if rest.hasAnyKey then some rest else none

/-- The default `NAI.ContextConfig` (`contextDefaults`). -/
def contextDefaults : ContextConfig where
  prefixText := ""
  suffixText := "\n"
  tokenBudget := 2048
  reservedTokens := 0
  budgetPriority := 400
  trimDirection := "trimBottom"
  insertionType := "newline"
  maximumTrimType := "sentence"
  insertionPosition := -1

/-- The default `NAI.LoreEntryConfig` (`entryDefaults`). -/
def entryDefaults : LoreEntryConfig where
  searchRange := 1024
  enabled := true
  forceActivation := false
  keyRelative := false
  nonStoryActivatable := false

/-! ## Strategies (strategies/fixed.js, strategies/depthDelta.js)

A strategy's configuration object may hold `context` / `entry` overrides and,
for `DepthDelta`, the unique `priorityDelta` / `searchDelta` fields.  The
`instanceId` field models JavaScript object identity: every separately
constructed strategy object is given a distinct identifier, so value equality
of the embedded `Strategy` coincides with reference equality of the object. -/

/-- A full `UniqueConfig` of the depth-delta strategy. -/
structure UniqueConfig where
  priorityDelta : Int
  searchDelta : Int
deriving Repr, DecidableEq

/-- A `Partial<UniqueConfig>`. -/
structure PartialUniqueConfig where
  priorityDelta : Option Int := none
  searchDelta : Option Int := none
deriving Repr, DecidableEq

/-- Spread-merge `{ ...a, ...b }` of partial unique configs (properties of
`b` win when present). -/
def PartialUniqueConfig.merge (a b : PartialUniqueConfig) : PartialUniqueConfig where
  priorityDelta := (b.priorityDelta).orElse (fun _ => a.priorityDelta)
  searchDelta := (b.searchDelta).orElse (fun _ => a.searchDelta)

/-- Default values for the depth-delta strategy's unique configuration
(`DEFAULTS` in depthDelta.js). -/
def depthDeltaDEFAULTS : UniqueConfig where
  priorityDelta := 1
  searchDelta := 1024

/-- A strategy configuration object (`context` / `entry` overrides plus the
depth-delta unique fields, absent for the fixed strategy). -/
structure StrategyConfig where
  context : Option PartialContextConfig := none
  entry : Option PartialLoreEntryConfig := none
  priorityDelta : Option Int := none
  searchDelta : Option Int := none
deriving Repr, DecidableEq

/-- The `...configUnique` rest of destructuring `context` and `entry` out of
a strategy configuration. -/
def StrategyConfig.unique (c : StrategyConfig) : PartialUniqueConfig where
  priorityDelta := c.priorityDelta
  searchDelta := c.searchDelta

/-- A strategy instance: the closed set of variants `Fixed` and `DepthDelta`.
`DepthDelta` carries `theDefaults` (format defaults merged over `DEFAULTS` by
`strategyBuilder`) and its `config`; `instanceId` models the object's
allocation identity. -/
inductive Strategy where
  | Fixed (instanceId : Nat) (config : StrategyConfig)
  | DepthDelta (instanceId : Nat) (theDefaults : UniqueConfig) (config : StrategyConfig)
deriving Repr, DecidableEq

/-- The `config` property of a strategy object. -/
def Strategy.config : Strategy → StrategyConfig
  | .Fixed _ c => c
  | .DepthDelta _ _ c => c

/-- The traversal state (`TLG.Config.State` plus the
`reversedTextIteration` toggle threaded through it by the builder). -/
structure BuildState where
  context : ContextConfig
  entry : LoreEntryConfig
  strategyStack : List Strategy
  depth : Nat
  reversedTextIteration : Bool
deriving Repr, DecidableEq

/-- Embeds `isInstanceInStack` (`stack.includes(self)`): reference identity
of strategy objects, modelled as equality of the embedded values (distinct
allocations carry distinct `instanceId`s). -/
def isInstanceInStack (stack : List Strategy) (self : Strategy) : Bool :=
  stack.contains self

/-- Embeds `getInheritedUnique`: collect the unique fields of every
depth-delta strategy in the stack (detected by its `type` tag) and fold them
together, later entries overriding earlier ones. -/
def getInheritedUnique (stack : List Strategy) : PartialUniqueConfig :=
  (stack.filterMap (fun s =>
    match s with
    | .DepthDelta _ _ c => some c.unique
    | .Fixed _ _ => none)).foldl PartialUniqueConfig.merge {}

/-- Embeds the strategies' `apply` method.  `Fixed.apply` is the identity on
the configuration; `DepthDelta.apply` merges inherited unique fields and, when
this very instance is already in the stack, strips the delta-target fields
from the `context` / `entry` overrides. -/
def Strategy.apply (self : Strategy) (state : BuildState) (currentConfig : StrategyConfig) :
    StrategyConfig :=
  match self with
  | .Fixed _ _ => currentConfig
  | .DepthDelta _ _ _ =>
      let configUnique := currentConfig.unique
      let inheritedUnique := getInheritedUnique state.strategyStack
      let finalUnique := inheritedUnique.merge configUnique
      if !(isInstanceInStack state.strategyStack self) then
        { context := currentConfig.context, entry := currentConfig.entry,
          priorityDelta := finalUnique.priorityDelta, searchDelta := finalUnique.searchDelta }
      else
        { context := currentConfig.context.bind PartialContextConfig.stripBudgetPriority,
          entry := currentConfig.entry.bind PartialLoreEntryConfig.stripSearchRange,
          priorityDelta := finalUnique.priorityDelta, searchDelta := finalUnique.searchDelta }

/-- Embeds the strategies' `extend` method.  `Fixed.extend` is the identity;
`DepthDelta.extend` adds `priorityDelta` to the state's resolved
`budgetPriority` and `searchDelta` to the state's resolved `searchRange`
(via `extendContext` / `extendEntry`). -/
def Strategy.extend (self : Strategy) (state : BuildState) (currentConfig : StrategyConfig) :
    StrategyConfig :=
  match self with
  | .Fixed _ _ => currentConfig
  | .DepthDelta _ theDefaults _ =>
      let finalUnique := currentConfig.unique
      let priorityDelta := finalUnique.priorityDelta.getD theDefaults.priorityDelta
      let budgetPriority := state.context.budgetPriority + priorityDelta
      let context := { currentConfig.context.getD {} with budgetPriority := some budgetPriority }
      let searchDelta := finalUnique.searchDelta.getD theDefaults.searchDelta
      let searchRange := state.entry.searchRange + searchDelta
      let entry := { currentConfig.entry.getD {} with searchRange := some searchRange }
      { context := some context, entry := some entry,
        priorityDelta := finalUnique.priorityDelta, searchDelta := finalUnique.searchDelta }

/-- Embeds the strategies' `context` method (identical for both variants):
`{ ...state.context, ...strategyConfig.context }`. -/
def Strategy.context (_self : Strategy) (state : BuildState) (strategyConfig : StrategyConfig) :
    ContextConfig :=
  state.context.merge (strategyConfig.context.getD {})

/-- Embeds the strategies' `entry` method (identical for both variants):
`{ ...state.entry, ...strategyConfig.entry }`. -/
def Strategy.entry (_self : Strategy) (state : BuildState) (strategyConfig : StrategyConfig) :
    LoreEntryConfig :=
  state.entry.merge (strategyConfig.entry.getD {})

/-- Embeds `Fixed(baseConfig)`: construct a fixed strategy instance. -/
def Fixed (instanceId : Nat) (baseConfig : StrategyConfig := {}) : Strategy :=
  .Fixed instanceId baseConfig

/-- Embeds `strategyBuilder(baseConfig, defaults)`: construct a depth-delta
strategy whose `theDefaults` is `{ ...DEFAULTS, ...defaults }`. -/
def strategyBuilder (instanceId : Nat) (baseConfig : StrategyConfig := {})
    (defaults : PartialUniqueConfig := {}) : Strategy :=
  .DepthDelta instanceId
    { priorityDelta := defaults.priorityDelta.getD depthDeltaDEFAULTS.priorityDelta,
      searchDelta := defaults.searchDelta.getD depthDeltaDEFAULTS.searchDelta }
    baseConfig

/-- Embeds `DepthDelta(baseConfig)`. -/
def DepthDelta (instanceId : Nat) (baseConfig : StrategyConfig := {}) : Strategy :=
  strategyBuilder instanceId baseConfig

/-! ## Entry-tree builder (building.js, version with `reversedTextIteration`) -/

/-- The `text` property of a buildable entry: a single string or a list. -/
inductive TextArg where
  | one (s : String)
  | many (ss : List String)
deriving Repr, DecidableEq

/-- Embeds `asArray`. -/
def asArray : TextArg → List String
  | .one s => [s]
  | .many ss => ss

/-- The `baseKeys` property: an explicit array or a transform function of the
effective parent keys. -/
inductive BaseKeys where
  | list (ks : List Phrase)
  | func (f : List Phrase → List Phrase)

/-- A `TLG.BuildableEntry` node of the author tree.  Absent optional
properties are `none`. -/
inductive BuildableEntry where
  | mk (name : String) (strategy : Option Strategy) (baseOp : Option PhraseOp)
       (baseKeys : Option BaseKeys) (keys : List Phrase) (text : Option TextArg)
       (subOp : Option PhraseOp) (subEntries : List BuildableEntry)

/-- The `Required<TLG.BuildableEntryConfig>` defaults handed to each entry. -/
structure BuildableEntryConfig where
  strategy : Strategy
  subOp : PhraseOp

/-- Embeds `yieldChildKeys`: empty parent keys pass the child keys through,
empty child keys pass the parent keys through; otherwise the parent keys are
alternated together (when more than one) and each child key is combined with
that alternation via `evalExp([childKey, subOp, altKeys])`. -/
def yieldChildKeys (parentKeys : List Phrase) (subOp : PhraseOp) (childKeys : List Phrase) :
    List Phrase :=
  if parentKeys.length = 0 then childKeys
  else if childKeys.length = 0 then parentKeys
  else
    let altKeys :=
      match parentKeys with
      | [single] => single
      | _ => (ALT parentKeys).toPhrase
    childKeys.map (fun childKey => (evalExp childKey subOp altKeys).toPhrase)

/-- An output record (`NAI.LoreEntry`):
`{ ...entryConfig, displayName, text, keys, contextConfig }`. -/
structure LoreEntry where
  displayName : String
  text : String
  keys : List String
  contextConfig : ContextConfig
  searchRange : Int
  enabled : Bool
  forceActivation : Bool
  keyRelative : Bool
  nonStoryActivatable : Bool
deriving Repr, DecidableEq

/-- Builds an output record from a resolved entry configuration plus the
per-record fields. -/
def mkLoreEntry (entryConfig : LoreEntryConfig) (displayName text : String)
    (keys : List String) (contextConfig : ContextConfig) : LoreEntry where
  displayName := displayName
  text := text
  keys := keys
  contextConfig := contextConfig
  searchRange := entryConfig.searchRange
  enabled := entryConfig.enabled
  forceActivation := entryConfig.forceActivation
  keyRelative := entryConfig.keyRelative
  nonStoryActivatable := entryConfig.nonStoryActivatable

/-- Helper of `iterPosition`: pair each element with its index from `i`. -/
def iterPositionAux (i : Nat) : List α → List (Nat × α)
  | [] => []
  | x :: rest => (i, x) :: iterPositionAux (i + 1) rest

/-- Embeds `iterPosition` for arrays: pair each element with its index. -/
def iterPosition (xs : List α) : List (Nat × α) := iterPositionAux 0 xs

/-- Embeds `entriesByText`: resolve the context and entry configuration for
the node (forcing activation when there are no compiled keys) and emit one
record per text string, numbering display names when there is more than one
text, in reverse order when `reversedTextIteration` is set.  Returns the
resolved context configuration together with the records. -/
def entriesByText (name : String) (state : BuildState) (strategy : Strategy)
    (config : StrategyConfig) (text : List String) (keys : List String) :
    ContextConfig × List LoreEntry :=
  let usedState :=
    if keys.length > 0 then state
    else { state with entry := { state.entry with forceActivation := true } }
  let contextConfig := strategy.context usedState config
  let entryConfig := strategy.entry usedState config
  let textCount := text.length
  let positioned := iterPosition text
  let ordered := if state.reversedTextIteration then positioned.reverse else positioned
  let entries := ordered.map (fun it =>
    let displayName :=
      if textCount = 1 then name
      else name ++ " (" ++ toString (it.1 + 1) ++ " of " ++ toString textCount ++ ")"
    mkLoreEntry entryConfig displayName it.2 keys contextConfig)
  (contextConfig, entries)

/-- Embeds the state computation of `entriesByChildren`: build the
intermediate state (without the forced-activation override), ask the strategy
to `extend` it, and seed the next traversal state for the children. -/
def childSeedState (state : BuildState) (strategy : Strategy) (config : StrategyConfig)
    (parentContext : ContextConfig) : BuildState :=
  let intermediateState :=
    { state with context := parentContext, entry := strategy.entry state config }
  let nextConfig := strategy.extend intermediateState config
  { context := strategy.context intermediateState nextConfig
    entry := strategy.entry intermediateState nextConfig
    strategyStack := state.strategyStack ++ [strategy]
    depth := state.depth + 1
    reversedTextIteration := state.reversedTextIteration }

mutual

/-- Nesting depth of an entry (used as the recursion measure for
`yieldEntries`). -/
def entryDepth : BuildableEntry → Nat
  | .mk _ _ _ _ _ _ _ subs => 1 + entryDepthList subs

/-- Nesting depth of a list of entries. -/
def entryDepthList : List BuildableEntry → Nat
  | [] => 0
  | e :: es => max (entryDepth e) (entryDepthList es)

end

mutual

/-- Embeds `yieldEntries`: compose the node's keys with the inherited base
keys, resolve the strategy configuration, emit the node's own text records
and the recursively built child records — children after the node's own text,
or before it when `reversedTextIteration` is set. -/
def yieldEntries (entry : BuildableEntry) (state : BuildState)
    (defaultsForEntry : BuildableEntryConfig) : List LoreEntry :=
  match entry with
  | .mk name stratOpt baseOpOpt baseKeysOpt givenKeys givenText subOpOpt childEntries =>
    let strategy := stratOpt.getD defaultsForEntry.strategy
    let baseOp := baseOpOpt.getD defaultsForEntry.subOp
    let subOp := subOpOpt.getD baseOp
    let theBaseKeys :=
      match baseKeysOpt with
      | none => []
      | some (.list ks) => ks
      | some (.func f) => f []
    let composedKeys := yieldChildKeys theBaseKeys baseOp givenKeys
    let text := match givenText with | none => [] | some t => asArray t
    let keys := composedKeys.map (fun key => (asEscaped key).toNAI)
    let curConfig := strategy.apply state strategy.config
    let byText := entriesByText name state strategy curConfig text keys
    let byChildren :=
      if childEntries.length = 0 then []
      else
        let nextState := childSeedState state strategy curConfig byText.1
        yieldChildren name subOp composedKeys childEntries nextState ⟨strategy, subOp⟩
    if state.reversedTextIteration then byChildren ++ byText.2 else byText.2 ++ byChildren
termination_by (entryDepth entry, 0)
decreasing_by
  simp only [entryDepth]
  apply Prod.Lex.left
  omega

/-- Embeds the per-child loop of `entriesByChildren`: rebuild each child with
the parent-derived `name`, defaulted `baseOp` and resolved `baseKeys`, then
recurse via `yieldEntries`, concatenating the results in order. -/
def yieldChildren (name : String) (subOp : PhraseOp) (parentKeys : List Phrase)
    (subs : List BuildableEntry) (nextState : BuildState) (cfg : BuildableEntryConfig) :
    List LoreEntry :=
  match subs with
  | [] => []
  | .mk cName cStrat cBaseOp cBaseKeys cKeys cText cSubOp cSubs :: rest =>
      let resolvedBase : List Phrase :=
        match cBaseKeys with
        | none => parentKeys
        | some (.func f) => f parentKeys
        | some (.list ks) => ks
      yieldEntries
          (.mk (name ++ " - " ++ cName) cStrat (some (cBaseOp.getD subOp))
            (some (.list resolvedBase)) cKeys cText cSubOp cSubs)
          nextState cfg
        ++ yieldChildren name subOp parentKeys rest nextState cfg
termination_by (entryDepthList subs, subs.length)
decreasing_by
  · simp only [entryDepth, entryDepthList]
    rcases Nat.lt_or_ge (1 + entryDepthList cSubs) (max (1 + entryDepthList cSubs) (entryDepthList rest)) with h | h
    · exact Prod.Lex.left _ _ h
    · have : max (1 + entryDepthList cSubs) (entryDepthList rest) = 1 + entryDepthList cSubs := by
        have := Nat.le_max_left (1 + entryDepthList cSubs) (entryDepthList rest)
        omega
      rw [this]
      exact Prod.Lex.right _ (by simp)
  · simp only [entryDepthList]
    rcases Nat.lt_or_ge (entryDepthList rest) (max (entryDepth (BuildableEntry.mk cName cStrat cBaseOp cBaseKeys cKeys cText cSubOp cSubs)) (entryDepthList rest)) with h | h
    · exact Prod.Lex.left _ _ h
    · have : max (entryDepth (BuildableEntry.mk cName cStrat cBaseOp cBaseKeys cKeys cText cSubOp cSubs)) (entryDepthList rest) = entryDepthList rest := by
        have := Nat.le_max_right (entryDepth (BuildableEntry.mk cName cStrat cBaseOp cBaseKeys cKeys cText cSubOp cSubs)) (entryDepthList rest)
        omega
      rw [this]
      exact Prod.Lex.right _ (by simp)

end

/-! ## Concrete scenarios used by the theorems -/

/-- The initial traversal state of `buildEntries` when no root strategy is
configured: the NovelAI defaults, an empty strategy stack, depth `0`, the
reversed-iteration toggle off (its default). -/
def initState : BuildState where
  context := contextDefaults
  entry := entryDefaults
  strategyStack := []
  depth := 0
  reversedTextIteration := false

/-- The initial state with the reversed-iteration toggle set. -/
def initStateRev : BuildState := { initState with reversedTextIteration := true }


/-- A depth-delta strategy instance with default configuration. -/
def ddStrategy : Strategy := DepthDelta 0

/-- Level-3 node of the chain scenario: explicitly reuses `ddStrategy`, the
very instance already applied at the root. -/
def ddLeaf : BuildableEntry :=
  .mk "D" (some ddStrategy) none none [.str "k"] (some (.one "t")) none []

/-- Level-2 node of the chain scenario. -/
def ddChain2 : BuildableEntry :=
  .mk "C" none none none [.str "k"] (some (.one "t")) none [ddLeaf]

/-- Level-1 node of the chain scenario. -/
def ddChain1 : BuildableEntry :=
  .mk "B" none none none [.str "k"] (some (.one "t")) none [ddChain2]

/-- Root of the chain scenario: uses `ddStrategy`, with three descendants
below it. -/
def ddChain0 : BuildableEntry :=
  .mk "A" (some ddStrategy) none none [.str "k"] (some (.one "t")) none [ddChain1]

/-- A fixed strategy whose entry override explicitly sets
`forceActivation: false`. -/
def fxForce : Strategy :=
  Fixed 7 { entry := some { forceActivation := some false } }

/-- A fixed strategy with an empty configuration. -/
def fxPlain : Strategy := Fixed 0
/-- An entry with empty `keys` whose strategy explicitly configures
`forceActivation: false`. -/
def entryNoKeysExplicitFalse : BuildableEntry :=
  .mk "A" (some fxForce) none none [] (some (.one "x")) none []

/-- Child node of the three-text scenario. -/
def textEntryB : BuildableEntry :=
  .mk "B" none none none [.str "dog"] (some (.one "u")) none []

/-- Root node of the three-text scenario: a three-element `text` list and one
sub-entry. -/
def textEntryA : BuildableEntry :=
  .mk "A" none none none [.str "cat"] (some (.many ["t1", "t2", "t3"])) none [textEntryB]

/-- The shape produced by the positive binary operators (`AND`, `WITH` and
the `NEAR` matchers): the coerced left fragment followed by a single
non-capturing group offering one lookahead and one lookbehind alternative,
both mentioning the right fragment (the lookbehind also re-mentions the left
fragment), and the result is a fresh escaped phrase distinct from both
coerced operands. -/
def anchoredAlt (res : EscapedRegex) (l r : Phrase) : Prop :=
  ∃ x y : String,
    res.pattern =
      (asEscaped l).pattern ++ "(?:" ++
        ("(?=" ++ x ++ (asEscaped r).pattern ++ ")") ++ "|" ++
        ("(?<=" ++ (asEscaped r).pattern ++ y ++ (asEscaped l).pattern ++ ")") ++ ")" ∧
    res ≠ asEscaped l ∧ res ≠ asEscaped r

/-- The shape produced by the negative binary operators (`EXCLUDING`,
`WITHOUT` and the `BEYOND` matchers): the coerced left fragment followed by a
negative lookahead and a negative lookbehind, both mentioning the right
fragment, the result again fresh. -/
def anchoredSeq (res : EscapedRegex) (l r : Phrase) : Prop :=
  ∃ x y : String,
    res.pattern =
      (asEscaped l).pattern ++
        ("(?!" ++ x ++ (asEscaped r).pattern ++ ")") ++
        ("(?<!" ++ (asEscaped r).pattern ++ y ++ (asEscaped l).pattern ++ ")") ∧
    res ≠ asEscaped l ∧ res ≠ asEscaped r

/-- The word-separation fragment of a `NEAR` matcher. -/
def nearSep (lo hi : Int) (sameLine : Bool) : String :=
  "(?:" ++ (if sameLine then NWLB else "\\W") ++ "+\\w+)\x7b" ++ toString lo ++ "," ++
    toString hi ++ "\x7d?\\W+"

/-- The word-separation fragment of a `BEYOND` matcher. -/
def beyondSep (distance : Int) (sameLine : Bool) : String :=
  "(?:" ++ (if sameLine then NWLB else "\\W") ++ "+\\w+)\x7b0," ++ toString distance ++
    "\x7d?\\W+"

/-! ## Theorems -/

/-- C5: phrase coercion (`asEscaped`) is idempotent: coercing the result of a
coercion returns the same value, and an already-escaped phrase passes through
unchanged rather than being rewrapped. -/
theorem asEscaped_idempotent :
    (∀ p : Phrase, asEscaped (asEscaped p).toPhrase = asEscaped p) ∧
    (∀ e : EscapedRegex, asEscaped e.toPhrase = e) := by
  constructor
  · intro p
    rfl
  · intro e
    rfl

/-- C10: `ALT` applied to zero phrases returns the escaped phrase whose
pattern is the empty non-capturing group `(?:)`, with output form `/(?:)/i`. -/
theorem ALT_empty :
    ALT [] = toEscaped "(?:)" ∧ (ALT []).toNAI = "/(?:)/i" := by
  constructor
  · decide
  · decide

/-- C1: `yieldChildKeys` with parent keys `[A, B]` and child keys `[C, D]`
under the conjunction operator emits exactly two compiled keys, each
conjoining one child key with the alternation of the parent keys; empty
parent keys pass the child keys through unchanged and empty child keys pass
the parent keys through unchanged. -/
theorem yieldChildKeys_spec :
    (∀ A B C D : Phrase,
      yieldChildKeys [A, B] .opAND [C, D] =
        [(AND C (ALT [A, B]).toPhrase).toPhrase,
         (AND D (ALT [A, B]).toPhrase).toPhrase] ∧
      (yieldChildKeys [A, B] .opAND [C, D]).length = 2) ∧
    (∀ (subOp : PhraseOp) (childKeys : List Phrase),
      yieldChildKeys [] subOp childKeys = childKeys) ∧
    (∀ (parentKeys : List Phrase) (subOp : PhraseOp),
      yieldChildKeys parentKeys subOp [] = parentKeys) := by
  refine ⟨fun A B C D => ⟨rfl, rfl⟩, fun subOp childKeys => rfl, fun parentKeys subOp => ?_⟩
  cases parentKeys <;> rfl

/-- C8: the `NEAR` factory's range resolution: a non-positive scalar yields
the degenerate bounds `[0, 0]` without error, a positive scalar yields
`[0, r]`, a two-element array is normalised by min/max without error, and any
other shape is a type error; `NEAR` itself propagates exactly these
outcomes. -/
theorem nearRange_spec :
    (∀ n : Int, n ≤ 0 → nearRange (.num n) = .ok (0, 0)) ∧
    (∀ n : Int, 0 < n → nearRange (.num n) = .ok (0, n)) ∧
    (∀ a b : Int, nearRange (.arr [a, b]) = .ok (min a b, max a b)) ∧
    (∀ xs : List Int, xs.length ≠ 2 →
      nearRange (.arr xs) = .error "TypeError: Not valid for range") ∧
    (nearRange .other = .error "TypeError: Not valid for range") ∧
    (∀ (range : RangeArg) (sameLine : Bool) (lo hi : Int),
      nearRange range = .ok (lo, hi) →
        NEAR range sameLine =
          .ok (fun left right => evalExp left (.opNEAR lo hi sameLine) right)) ∧
    (∀ (range : RangeArg) (sameLine : Bool) (msg : String),
      nearRange range = .error msg → NEAR range sameLine = .error msg) := by
  refine ⟨?_, ?_, fun a b => rfl, ?_, rfl, ?_, ?_⟩
  · intro n h
    simp [nearRange, h]
  · intro n h
    simp [nearRange, Int.not_le.mpr h]
  · intro xs h
    rcases xs with _ | ⟨a, _ | ⟨b, _ | ⟨c, rest⟩⟩⟩ <;> simp_all [nearRange]
  · intro range sameLine lo hi h
    simp [NEAR, h, Except.map]
  · intro range sameLine msg h
    simp [NEAR, h, Except.map]

/-- C8 witness: the resolution behaviours at concrete inputs. -/
theorem nearRange_spec_witness :
    nearRange (.num (-3)) = .ok (0, 0) ∧
    nearRange (.num 10) = .ok (0, 10) ∧
    nearRange (.arr [7, 2]) = .ok (2, 7) ∧
    nearRange (.arr [1, 2, 3]) = .error "TypeError: Not valid for range" ∧
    NEAR (.num 10) true =
      .ok (fun left right => evalExp left (.opNEAR 0 10 true) right) ∧
    NEAR (.arr [1, 2, 3]) true = .error "TypeError: Not valid for range" := by
  refine ⟨nearRange_spec.1 (-3) (by decide), nearRange_spec.2.1 10 (by decide), ?_, ?_, ?_, ?_⟩
  · have h := nearRange_spec.2.2.1 7 2
    simpa using h
  · exact nearRange_spec.2.2.2.1 [1, 2, 3] (by decide)
  · exact nearRange_spec.2.2.2.2.2.1 (.num 10) true 0 10 rfl
  · exact nearRange_spec.2.2.2.2.2.2 (.arr [1, 2, 3]) true _ rfl

/-- C4: depth-delta re-application detection is by instance identity: when
the very same instance is in the stack, `apply` strips `budgetPriority` from
the context override and `searchRange` from the entry override; when it is
not, the overrides pass through untouched — and a separately constructed
instance (different identity) with identical configuration leaves the stack
check false and the overrides untouched. -/
theorem depthDelta_apply_spec :
    (∀ (i : Nat) (d : UniqueConfig) (base : StrategyConfig) (state : BuildState)
       (cfg : StrategyConfig),
      isInstanceInStack state.strategyStack (.DepthDelta i d base) = true →
        ((Strategy.DepthDelta i d base).apply state cfg).context
            = cfg.context.bind PartialContextConfig.stripBudgetPriority ∧
        ((Strategy.DepthDelta i d base).apply state cfg).entry
            = cfg.entry.bind PartialLoreEntryConfig.stripSearchRange) ∧
    (∀ (i : Nat) (d : UniqueConfig) (base : StrategyConfig) (state : BuildState)
       (cfg : StrategyConfig),
      isInstanceInStack state.strategyStack (.DepthDelta i d base) = false →
        ((Strategy.DepthDelta i d base).apply state cfg).context = cfg.context ∧
        ((Strategy.DepthDelta i d base).apply state cfg).entry = cfg.entry) ∧
    (∀ (i j : Nat) (d : UniqueConfig) (base : StrategyConfig) (state : BuildState)
       (cfg : StrategyConfig),
      i ≠ j → state.strategyStack = [.DepthDelta j d base] →
        isInstanceInStack state.strategyStack (.DepthDelta i d base) = false ∧
        ((Strategy.DepthDelta i d base).apply state cfg).context = cfg.context ∧
        ((Strategy.DepthDelta i d base).apply state cfg).entry = cfg.entry) := by
  have notStripped : ∀ (i : Nat) (d : UniqueConfig) (base : StrategyConfig)
      (state : BuildState) (cfg : StrategyConfig),
      isInstanceInStack state.strategyStack (.DepthDelta i d base) = false →
        ((Strategy.DepthDelta i d base).apply state cfg).context = cfg.context ∧
        ((Strategy.DepthDelta i d base).apply state cfg).entry = cfg.entry := by
    intro i d base state cfg h
    constructor <;> simp [Strategy.apply, h]
  refine ⟨?_, notStripped, ?_⟩
  · intro i d base state cfg h
    constructor <;> simp [Strategy.apply, h]
  · intro i j d base state cfg hij hstack
    have hmem : isInstanceInStack state.strategyStack (.DepthDelta i d base) = false := by
      rw [hstack]
      simp [isInstanceInStack, hij]
    exact ⟨hmem, notStripped i d base state cfg hmem⟩

/-- C4 witness: a concrete state whose stack holds the instance itself
(stripping), and one holding only an identically configured twin with a
different identity (no stripping). -/
theorem depthDelta_apply_spec_witness :
    (isInstanceInStack
        [Strategy.DepthDelta 0 depthDeltaDEFAULTS
          { context := some { budgetPriority := some 500 } }]
        (.DepthDelta 0 depthDeltaDEFAULTS
          { context := some { budgetPriority := some 500 } }) = true ∧
      ((Strategy.DepthDelta 0 depthDeltaDEFAULTS
          { context := some { budgetPriority := some 500 } }).apply
        { initState with
            strategyStack :=
              [.DepthDelta 0 depthDeltaDEFAULTS
                { context := some { budgetPriority := some 500 } }] }
        { context := some { budgetPriority := some 500 } }).context
          = ({ context := some { budgetPriority := some 500 } :
              StrategyConfig }).context.bind PartialContextConfig.stripBudgetPriority) ∧
    (isInstanceInStack
        [Strategy.DepthDelta 1 depthDeltaDEFAULTS
          { context := some { budgetPriority := some 500 } }]
        (.DepthDelta 0 depthDeltaDEFAULTS
          { context := some { budgetPriority := some 500 } }) = false ∧
      ((Strategy.DepthDelta 0 depthDeltaDEFAULTS
          { context := some { budgetPriority := some 500 } }).apply
        { initState with
            strategyStack :=
              [.DepthDelta 1 depthDeltaDEFAULTS
                { context := some { budgetPriority := some 500 } }] }
        { context := some { budgetPriority := some 500 } }).context
          = ({ context := some { budgetPriority := some 500 } :
              StrategyConfig }).context) := by
  constructor
  · constructor
    · decide
    · exact (depthDelta_apply_spec.1 0 depthDeltaDEFAULTS
        { context := some { budgetPriority := some 500 } }
        { initState with
            strategyStack :=
              [.DepthDelta 0 depthDeltaDEFAULTS
                { context := some { budgetPriority := some 500 } }] }
        { context := some { budgetPriority := some 500 } } (by decide)).1
  · constructor
    · decide
    · exact ((depthDelta_apply_spec.2.2 0 1 depthDeltaDEFAULTS
        { context := some { budgetPriority := some 500 } }
        { initState with
            strategyStack :=
              [.DepthDelta 1 depthDeltaDEFAULTS
                { context := some { budgetPriority := some 500 } }] }
        { context := some { budgetPriority := some 500 } } (by decide) rfl).2).1

/-- Soundness of the greedy matcher: a successful capture splits the input
into dot-matchable captured text, the closing delimiter and a flags tail. -/
theorem greedyCapture_sound :
    ∀ (cs g : List Char), greedyCapture cs = some g →
      g.all isDotChar = true ∧
      ∃ flags, cs = g ++ '/' :: flags ∧ flags.all isFlagChar = true := by
  intro cs
  induction cs with
  | nil =>
      intro g h
      simp [greedyCapture] at h
  | cons c cs ih =>
      intro g h
      rw [greedyCapture] at h
      by_cases hdot : isDotChar c
      · rw [if_pos hdot] at h
        cases hrec : greedyCapture cs with
        | some gp =>
            rw [hrec] at h
            obtain ⟨hall, flags, hcs, hflags⟩ := ih gp hrec
            cases h
            exact ⟨by simp [hall, hdot], flags, by simp [hcs], hflags⟩
        | none =>
            rw [hrec] at h
            by_cases hcond : (decide (c = '/') && cs.all isFlagChar) = true
            · rw [if_pos hcond] at h
              cases h
              simp only [Bool.and_eq_true, decide_eq_true_eq] at hcond
              exact ⟨rfl, cs, by simp [hcond.1], hcond.2⟩
            · rw [if_neg hcond] at h
              exact absurd h (by simp)
      · rw [if_neg hdot] at h
        by_cases hcond : (decide (c = '/') && cs.all isFlagChar) = true
        · rw [if_pos hcond] at h
          cases h
          simp only [Bool.and_eq_true, decide_eq_true_eq] at hcond
          exact ⟨rfl, cs, by simp [hcond.1], hcond.2⟩
        · rw [if_neg hcond] at h
          exact absurd h (by simp)

/-- Completeness of the greedy matcher: every well-formed tail is matched. -/
theorem greedyCapture_complete :
    ∀ (g flags : List Char), g.all isDotChar = true → flags.all isFlagChar = true →
      (greedyCapture (g ++ '/' :: flags)).isSome = true := by
  intro g
  induction g with
  | nil =>
      intro flags _ hflags
      rw [List.nil_append, greedyCapture]
      have hdot : isDotChar '/' = true := by decide
      rw [if_pos hdot]
      cases hrec : greedyCapture flags with
      | some gp => simp
      | none => simp [hflags]
  | cons d g ih =>
      intro flags hg hflags
      simp only [List.all_cons, Bool.and_eq_true] at hg
      rw [List.cons_append, greedyCapture, if_pos hg.1]
      cases hrec : greedyCapture (g ++ '/' :: flags) with
      | some gp => simp
      | none =>
          have := ih flags hg.2 hflags
          rw [hrec] at this
          simp at this

/-- The matcher accepts exactly the delimited strings. -/
theorem reNaiExec_isSome_iff (s : String) :
    (reNaiExec s).isSome = true ↔ DelimitedForm s := by
  constructor
  · intro h
    rw [reNaiExec] at h
    split at h
    · rename_i rest hdata
      cases hcap : greedyCapture rest with
      | some g =>
          obtain ⟨hall, flags, hrest, hflags⟩ := greedyCapture_sound rest g hcap
          exact ⟨g, flags, by rw [hdata, hrest]; simp, hall, hflags⟩
      | none => rw [hcap] at h; simp at h
    · simp at h
  · rintro ⟨g, flags, hdata, hg, hflags⟩
    rw [reNaiExec]
    split
    · rename_i rest hrest
      rw [hdata] at hrest
      cases hrest
      have := greedyCapture_complete g flags hg hflags
      cases hcap : greedyCapture (g ++ '/' :: flags) with
      | some gp => simp
      | none => rw [hcap] at this; simp at this
    · rename_i hne
      have hcons : s.data = '/' :: (g ++ '/' :: flags) := by rw [hdata]; simp
      exact absurd hcons (hne _)

/-- C7: the raw-pattern import is the only failing builder: on a string in
the delimited `/pattern/flags` form, `REGEX` succeeds with exactly the
captured pattern text (flags discarded); on any other string it throws; the
remaining primitive builders are total functions given by their pattern
equations. -/
theorem REGEX_spec :
    (∀ s g, reNaiExec s = some g →
      REGEX s = .ok (toEscaped g) ∧
      ∃ flags : List Char,
        s.data = '/' :: g.data ++ '/' :: flags ∧ flags.all isFlagChar = true) ∧
    (∀ s, ¬ DelimitedForm s →
      REGEX s = .error ("Not compatible with NovelAI regular-expressions: " ++ s)) ∧
    (∀ s, DelimitedForm s → ∃ g, REGEX s = .ok (toEscaped g)) ∧
    (∀ w, LIT w = toEscaped (B ++ escapeRegExp w ++ B)) ∧
    (∀ w, PRE w = toEscaped (B ++ escapeRegExp w)) ∧
    (∀ w, POST w = toEscaped (OE ++ escapeRegExp w ++ B)) ∧
    (∀ w, OPEN w = toEscaped (OE ++ escapeRegExp w)) := by
  refine ⟨?_, ?_, ?_, fun w => rfl, fun w => rfl, fun w => rfl, fun w => rfl⟩
  · intro s g h
    refine ⟨by rw [REGEX, h], ?_⟩
    rw [reNaiExec] at h
    split at h
    · rename_i rest hdata
      cases hcap : greedyCapture rest with
      | some gl =>
          rw [hcap] at h
          obtain ⟨hall, flags, hrest, hflags⟩ := greedyCapture_sound rest gl hcap
          refine ⟨flags, ?_, hflags⟩
          cases h
          rw [hdata, hrest]
          simp
      | none => rw [hcap] at h; simp at h
    · exact absurd h (by simp)
  · intro s h
    have : (reNaiExec s).isSome = false := by
      rcases hsome : (reNaiExec s).isSome with _ | _
      · rfl
      · exact absurd ((reNaiExec_isSome_iff s).mp hsome) h
    rw [REGEX]
    cases hexec : reNaiExec s with
    | some g => rw [hexec] at this; simp at this
    | none => rfl
  · intro s h
    have := (reNaiExec_isSome_iff s).mpr h
    cases hexec : reNaiExec s with
    | some g => exact ⟨g, by rw [REGEX, hexec]⟩
    | none => rw [hexec] at this; simp at this

/-- C7 witness: a well-formed raw import, its captured pattern, and a
malformed one that throws. -/
theorem REGEX_spec_witness :
    REGEX "/abc/i" = .ok (toEscaped "abc") ∧
    REGEX "abc" = .error ("Not compatible with NovelAI regular-expressions: " ++ "abc") ∧
    LIT "cat" = toEscaped (B ++ escapeRegExp "cat" ++ B) := by
  refine ⟨(REGEX_spec.1 "/abc/i" "abc" rfl).1, ?_, REGEX_spec.2.2.2.1 "cat"⟩
  refine REGEX_spec.2.1 "abc" ?_
  intro hform
  have := (reNaiExec_isSome_iff "abc").mpr hform
  simp [reNaiExec] at this

/-- Escaped parts are equal exactly when their patterns are. -/
theorem EscapedRegex.eq_iff {a b : EscapedRegex} : a = b ↔ a.pattern = b.pattern := by
  constructor
  · intro h
    rw [h]
  · intro h
    cases a
    cases b
    cases h
    rfl

/-- A pattern of the positive-operator shape is a different string from both
of its fragments. -/
theorem alt_shape_ne (fl fr x y : String) :
    (fl ++ "(?:" ++ ("(?=" ++ x ++ fr ++ ")") ++ "|" ++
        ("(?<=" ++ fr ++ y ++ fl ++ ")") ++ ")") ≠ fl ∧
    (fl ++ "(?:" ++ ("(?=" ++ x ++ fr ++ ")") ++ "|" ++
        ("(?<=" ++ fr ++ y ++ fl ++ ")") ++ ")") ≠ fr := by
  have l1 : ("(?:" : String).length = 3 := rfl
  have l2 : ("(?=" : String).length = 3 := rfl
  have l3 : ("(?<=" : String).length = 4 := rfl
  have l4 : (")" : String).length = 1 := rfl
  have l5 : ("|" : String).length = 1 := rfl
  constructor <;> intro he <;>
    · have h := congrArg String.length he
      simp only [String.length_append, l1, l2, l3, l4, l5] at h
      omega

/-- A pattern of the negative-operator shape is a different string from both
of its fragments. -/
theorem seq_shape_ne (fl fr x y : String) :
    (fl ++ ("(?!" ++ x ++ fr ++ ")") ++ ("(?<!" ++ fr ++ y ++ fl ++ ")")) ≠ fl ∧
    (fl ++ ("(?!" ++ x ++ fr ++ ")") ++ ("(?<!" ++ fr ++ y ++ fl ++ ")")) ≠ fr := by
  have l1 : ("(?!" : String).length = 3 := rfl
  have l2 : ("(?<!" : String).length = 4 := rfl
  have l3 : (")" : String).length = 1 := rfl
  constructor <;> intro he <;>
    · have h := congrArg String.length he
      simp only [String.length_append, l1, l2, l3] at h
      omega

/-- The `AND` pattern in anchored form. -/
theorem AND_anchored (l r : Phrase) : anchoredAlt (AND l r) l r := by
  refine ⟨AC ++ "*?", AC ++ "*?", ?_, ?_, ?_⟩
  · simp only [AND, evalExp, asEscaped, opPattern, toEscaped, String.append_assoc]
  · rw [Ne, EscapedRegex.eq_iff]
    show ¬ (opPattern .opAND (asEscaped l).pattern (asEscaped r).pattern = _)
    simp only [opPattern, String.append_assoc]
    intro h
    exact (alt_shape_ne (asEscaped l).pattern (asEscaped r).pattern (AC ++ "*?") (AC ++ "*?")).1
      (by simpa [String.append_assoc] using h)
  · rw [Ne, EscapedRegex.eq_iff]
    show ¬ (opPattern .opAND (asEscaped l).pattern (asEscaped r).pattern = _)
    simp only [opPattern, String.append_assoc]
    intro h
    exact (alt_shape_ne (asEscaped l).pattern (asEscaped r).pattern (AC ++ "*?") (AC ++ "*?")).2
      (by simpa [String.append_assoc] using h)

/-- The `EXCLUDING` pattern in anchored form. -/
theorem EXCLUDING_anchored (l r : Phrase) : anchoredSeq (EXCLUDING l r) l r := by
  refine ⟨AC ++ "*?", AC ++ "*?", ?_, ?_, ?_⟩
  · simp only [EXCLUDING, evalExp, asEscaped, opPattern, toEscaped, String.append_assoc]
  · rw [Ne, EscapedRegex.eq_iff]
    show ¬ (opPattern .opEXCLUDING (asEscaped l).pattern (asEscaped r).pattern = _)
    simp only [opPattern, String.append_assoc]
    intro h
    exact (seq_shape_ne (asEscaped l).pattern (asEscaped r).pattern (AC ++ "*?") (AC ++ "*?")).1
      (by simpa [String.append_assoc] using h)
  · rw [Ne, EscapedRegex.eq_iff]
    show ¬ (opPattern .opEXCLUDING (asEscaped l).pattern (asEscaped r).pattern = _)
    simp only [opPattern, String.append_assoc]
    intro h
    exact (seq_shape_ne (asEscaped l).pattern (asEscaped r).pattern (AC ++ "*?") (AC ++ "*?")).2
      (by simpa [String.append_assoc] using h)

/-- The `WITH` pattern in anchored form. -/
theorem WITH_anchored (l r : Phrase) : anchoredAlt (WITH l r) l r := by
  have b1 : ("(?=.*?" : String) = "(?=" ++ ".*?" := rfl
  refine ⟨".*?", ".*?", ?_, ?_, ?_⟩
  · simp only [WITH, evalExp, asEscaped, opPattern, toEscaped, b1, String.append_assoc]
  · rw [Ne, EscapedRegex.eq_iff]
    show ¬ (opPattern .opWITH (asEscaped l).pattern (asEscaped r).pattern = _)
    simp only [opPattern, b1, String.append_assoc]
    intro h
    exact (alt_shape_ne (asEscaped l).pattern (asEscaped r).pattern ".*?" ".*?").1
      (by simpa [b1, String.append_assoc] using h)
  · rw [Ne, EscapedRegex.eq_iff]
    show ¬ (opPattern .opWITH (asEscaped l).pattern (asEscaped r).pattern = _)
    simp only [opPattern, b1, String.append_assoc]
    intro h
    exact (alt_shape_ne (asEscaped l).pattern (asEscaped r).pattern ".*?" ".*?").2
      (by simpa [b1, String.append_assoc] using h)

/-- The `WITHOUT` pattern in anchored form. -/
theorem WITHOUT_anchored (l r : Phrase) : anchoredSeq (WITHOUT l r) l r := by
  have b1 : ("(?!.*?" : String) = "(?!" ++ ".*?" := rfl
  refine ⟨".*?", ".*?", ?_, ?_, ?_⟩
  · simp only [WITHOUT, evalExp, asEscaped, opPattern, toEscaped, b1, String.append_assoc]
  · rw [Ne, EscapedRegex.eq_iff]
    show ¬ (opPattern .opWITHOUT (asEscaped l).pattern (asEscaped r).pattern = _)
    simp only [opPattern, b1, String.append_assoc]
    intro h
    exact (seq_shape_ne (asEscaped l).pattern (asEscaped r).pattern ".*?" ".*?").1
      (by simpa [b1, String.append_assoc] using h)
  · rw [Ne, EscapedRegex.eq_iff]
    show ¬ (opPattern .opWITHOUT (asEscaped l).pattern (asEscaped r).pattern = _)
    simp only [opPattern, b1, String.append_assoc]
    intro h
    exact (seq_shape_ne (asEscaped l).pattern (asEscaped r).pattern ".*?" ".*?").2
      (by simpa [b1, String.append_assoc] using h)

/-- The `NEAR` matcher pattern in anchored form, for any resolved range. -/
theorem NEAR_anchored (l r : Phrase) (lo hi : Int) (sameLine : Bool) :
    anchoredAlt (evalExp l (.opNEAR lo hi sameLine) r) l r := by
  refine ⟨nearSep lo hi sameLine, nearSep lo hi sameLine, ?_, ?_, ?_⟩
  · simp only [evalExp, asEscaped, opPattern, toEscaped, nearSep, String.append_assoc]
  · rw [Ne, EscapedRegex.eq_iff]
    show ¬ (opPattern (.opNEAR lo hi sameLine) (asEscaped l).pattern (asEscaped r).pattern = _)
    simp only [opPattern, String.append_assoc]
    intro h
    exact (alt_shape_ne (asEscaped l).pattern (asEscaped r).pattern
        (nearSep lo hi sameLine) (nearSep lo hi sameLine)).1
      (by simpa [nearSep, String.append_assoc] using h)
  · rw [Ne, EscapedRegex.eq_iff]
    show ¬ (opPattern (.opNEAR lo hi sameLine) (asEscaped l).pattern (asEscaped r).pattern = _)
    simp only [opPattern, String.append_assoc]
    intro h
    exact (alt_shape_ne (asEscaped l).pattern (asEscaped r).pattern
        (nearSep lo hi sameLine) (nearSep lo hi sameLine)).2
      (by simpa [nearSep, String.append_assoc] using h)

/-- The `BEYOND` matcher pattern in anchored form. -/
theorem BEYOND_anchored (l r : Phrase) (distance : Int) (sameLine : Bool) :
    anchoredSeq (BEYOND distance sameLine l r) l r := by
  refine ⟨beyondSep distance sameLine, beyondSep distance sameLine, ?_, ?_, ?_⟩
  · simp only [BEYOND, evalExp, asEscaped, opPattern, toEscaped, beyondSep, String.append_assoc]
  · rw [Ne, EscapedRegex.eq_iff]
    show ¬ (opPattern (.opBEYOND distance sameLine) (asEscaped l).pattern (asEscaped r).pattern = _)
    simp only [opPattern, String.append_assoc]
    intro h
    exact (seq_shape_ne (asEscaped l).pattern (asEscaped r).pattern
        (beyondSep distance sameLine) (beyondSep distance sameLine)).1
      (by simpa [beyondSep, String.append_assoc] using h)
  · rw [Ne, EscapedRegex.eq_iff]
    show ¬ (opPattern (.opBEYOND distance sameLine) (asEscaped l).pattern (asEscaped r).pattern = _)
    simp only [opPattern, String.append_assoc]
    intro h
    exact (seq_shape_ne (asEscaped l).pattern (asEscaped r).pattern
        (beyondSep distance sameLine) (beyondSep distance sameLine)).2
      (by simpa [beyondSep, String.append_assoc] using h)

/-- C6: every binary operator anchors its compiled pattern on the left
operand: the pattern is the coerced left fragment followed only by
lookahead/lookbehind groups that mention the right fragment, and the result
is a newly built escaped phrase, never one of the coerced inputs. -/
theorem operator_anchoring :
    ∀ l r : Phrase,
      anchoredAlt (AND l r) l r ∧ anchoredSeq (EXCLUDING l r) l r ∧
      anchoredAlt (WITH l r) l r ∧ anchoredSeq (WITHOUT l r) l r ∧
      (∀ (lo hi : Int) (sameLine : Bool),
        anchoredAlt (evalExp l (.opNEAR lo hi sameLine) r) l r) ∧
      (∀ (distance : Int) (sameLine : Bool),
        anchoredSeq (BEYOND distance sameLine l r) l r) := by
  intro l r
  exact ⟨AND_anchored l r, EXCLUDING_anchored l r, WITH_anchored l r, WITHOUT_anchored l r,
    fun lo hi sameLine => NEAR_anchored l r lo hi sameLine,
    fun distance sameLine => BEYOND_anchored l r distance sameLine⟩

/-- C2 counterexample: an entry with empty `keys` whose own strategy
explicitly configures `forceActivation: false` emits a record with
`forceActivation = false` — the forced value does not override an explicit
override supplied for the node. -/
theorem forceActivation_cex :
    (yieldEntries entryNoKeysExplicitFalse initState ⟨fxPlain, .opAND⟩).map
        LoreEntry.forceActivation = [false] ∧
    ¬ (∀ r ∈ yieldEntries entryNoKeysExplicitFalse initState ⟨fxPlain, .opAND⟩,
        r.forceActivation = true) := by
  constructor
  · simp only [entryNoKeysExplicitFalse, yieldEntries]
    decide
  · simp only [entryNoKeysExplicitFalse, yieldEntries]
    decide

/-- C2 amended: with no compiled keys, each emitted record's
`forceActivation` is the strategy configuration's entry override when one is
supplied and `true` otherwise (the forced value overrides only the inherited
state value); with at least one compiled key, it is the override when
supplied and the inherited state value otherwise. -/
theorem forceActivation_amended :
    (∀ (name : String) (state : BuildState) (strat : Strategy) (cfg : StrategyConfig)
       (texts : List String) (r : LoreEntry),
      r ∈ (entriesByText name state strat cfg texts []).2 →
        r.forceActivation = ((cfg.entry.getD {}).forceActivation.getD true)) ∧
    (∀ (name : String) (state : BuildState) (strat : Strategy) (cfg : StrategyConfig)
       (texts : List String) (keys : List String) (r : LoreEntry),
      keys ≠ [] →
      r ∈ (entriesByText name state strat cfg texts keys).2 →
        r.forceActivation
          = ((cfg.entry.getD {}).forceActivation.getD state.entry.forceActivation)) := by
  constructor
  · intro name state strat cfg texts r hr
    simp only [entriesByText] at hr
    obtain ⟨it, hit, rfl⟩ := List.mem_map.mp hr
    simp [mkLoreEntry, Strategy.entry, LoreEntryConfig.merge]
  · intro name state strat cfg texts keys r hkeys hr
    have hlen : keys.length > 0 := List.length_pos.mpr hkeys
    simp only [entriesByText, if_pos hlen] at hr
    obtain ⟨it, hit, rfl⟩ := List.mem_map.mp hr
    simp [mkLoreEntry, Strategy.entry, LoreEntryConfig.merge]

/-- C2 amended witness: a no-keys record without an explicit override gets
`forceActivation = true`; a keyed record inherits the default `false`. -/
theorem forceActivation_amended_witness :
    (mkLoreEntry { entryDefaults with forceActivation := true } "A" "x" []
        contextDefaults).forceActivation = true ∧
    (mkLoreEntry entryDefaults "A" "x" ["/k/i"] contextDefaults).forceActivation = false := by
  constructor
  · simpa using forceActivation_amended.1 "A" initState fxPlain {} ["x"] _ (by decide)
  · simpa using forceActivation_amended.2 "A" initState fxPlain {} ["x"] ["/k/i"] _
      (by decide) (by decide)

/-- C3: the depth-delta strategy's descent: the child-seed state's
`budgetPriority` is the parent's resolved value plus `priorityDelta`
(default `1`) and its `searchRange` is the parent's resolved value plus
`searchDelta` (default `1024`); over the 4-level chain scenario — whose 4th
level explicitly reuses the same instance already on the stack — the emitted
per-level values increase by exactly one delta per level with no
double-application. -/
theorem depthDelta_extend_spec :
    (∀ (i : Nat) (base : StrategyConfig) (state : BuildState) (cfg : StrategyConfig)
       (ctx : ContextConfig),
      cfg.priorityDelta = none → cfg.searchDelta = none →
        (childSeedState state (DepthDelta i base) cfg ctx).context.budgetPriority
            = ctx.budgetPriority + 1 ∧
        (childSeedState state (DepthDelta i base) cfg ctx).entry.searchRange
            = ((DepthDelta i base).entry state cfg).searchRange + 1024) ∧
    (∀ (i : Nat) (base : StrategyConfig) (state : BuildState) (cfg : StrategyConfig)
       (ctx : ContextConfig) (pd sd : Int),
      cfg.priorityDelta = some pd → cfg.searchDelta = some sd →
        (childSeedState state (DepthDelta i base) cfg ctx).context.budgetPriority
            = ctx.budgetPriority + pd ∧
        (childSeedState state (DepthDelta i base) cfg ctx).entry.searchRange
            = ((DepthDelta i base).entry state cfg).searchRange + sd) ∧
    ((yieldEntries ddChain0 initState ⟨ddStrategy, .opAND⟩).map
        (fun r => (r.contextConfig.budgetPriority, r.searchRange))
      = [(400, 1024), (401, 2048), (402, 3072), (403, 4096)]) := by
  refine ⟨?_, ?_, ?_⟩
  · intro i base state cfg ctx h1 h2
    constructor <;>
      simp [childSeedState, DepthDelta, strategyBuilder, Strategy.extend, Strategy.context,
        Strategy.entry, ContextConfig.merge, LoreEntryConfig.merge, StrategyConfig.unique,
        depthDeltaDEFAULTS, h1, h2]
  · intro i base state cfg ctx pd sd h1 h2
    constructor <;>
      simp [childSeedState, DepthDelta, strategyBuilder, Strategy.extend, Strategy.context,
        Strategy.entry, ContextConfig.merge, LoreEntryConfig.merge, StrategyConfig.unique,
        depthDeltaDEFAULTS, h1, h2]
  · simp only [ddChain0, ddChain1, ddChain2, ddLeaf, yieldEntries, yieldChildren]
    decide

/-- C3 witness: one descent step from the default initial state. -/
theorem depthDelta_extend_spec_witness :
    (childSeedState initState (DepthDelta 0 {}) {} contextDefaults).context.budgetPriority
        = contextDefaults.budgetPriority + 1 ∧
    (childSeedState initState (DepthDelta 0 {}) {} contextDefaults).entry.searchRange
        = ((DepthDelta 0 {}).entry initState {}).searchRange + 1024 := by
  exact depthDelta_extend_spec.1 0 {} initState {} contextDefaults rfl rfl

/-- C9: a text list of `N ≠ 1` strings emits one record per string whose
display names carry the `(i of N)` suffix in input order; a scalar text
emits a single record with the plain name; setting the reversed-iteration
toggle reverses the text records (contents unchanged) and, in the end-to-end
scenario, emits children before the node's own text. -/
theorem textRecords_spec :
    (∀ (name : String) (state : BuildState) (strat : Strategy) (cfg : StrategyConfig)
       (texts : List String) (keys : List String),
      state.reversedTextIteration = false → texts.length ≠ 1 →
        (entriesByText name state strat cfg texts keys).2.map
            (fun r => (r.displayName, r.text))
          = (iterPosition texts).map (fun it =>
              (name ++ " (" ++ toString (it.1 + 1) ++ " of " ++ toString texts.length ++ ")",
               it.2))) ∧
    (∀ (name : String) (state : BuildState) (strat : Strategy) (cfg : StrategyConfig)
       (s : String) (keys : List String),
      state.reversedTextIteration = false →
        (entriesByText name state strat cfg (asArray (.one s)) keys).2.map
            (fun r => (r.displayName, r.text))
          = [(name, s)]) ∧
    (∀ (name : String) (state : BuildState) (strat : Strategy) (cfg : StrategyConfig)
       (texts : List String) (keys : List String),
      (entriesByText name { state with reversedTextIteration := true } strat cfg texts keys).2
        = ((entriesByText name { state with reversedTextIteration := false }
            strat cfg texts keys).2).reverse) ∧
    ((yieldEntries textEntryA initState ⟨fxPlain, .opAND⟩).map LoreEntry.displayName
        = ["A (1 of 3)", "A (2 of 3)", "A (3 of 3)", "A - B"]) ∧
    (yieldEntries textEntryA initStateRev ⟨fxPlain, .opAND⟩
        = (yieldEntries textEntryA initState ⟨fxPlain, .opAND⟩).reverse) := by
  refine ⟨?_, ?_, ?_, ?_, ?_⟩
  · intro name state strat cfg texts keys hrev hlen
    simp only [entriesByText, hrev, Bool.false_eq_true, if_false, List.map_map]
    refine List.map_congr_left ?_
    intro it hit
    simp [mkLoreEntry, if_neg hlen]
  · intro name state strat cfg s keys hrev
    simp [entriesByText, asArray, iterPosition, iterPositionAux, mkLoreEntry, hrev]
  · intro name state strat cfg texts keys
    by_cases hk : 0 < keys.length <;>
      simp [entriesByText, Strategy.context, Strategy.entry, hk, List.map_reverse]
  · simp only [textEntryA, textEntryB, yieldEntries, yieldChildren]
    decide
  · simp only [textEntryA, textEntryB, initStateRev, yieldEntries, yieldChildren]
    decide

/-- C9 witness: the suffixed display names at a concrete three-element text
list, and the scalar case. -/
theorem textRecords_spec_witness :
    ((entriesByText "A" initState fxPlain {} ["t1", "t2", "t3"] ["/k/i"]).2.map
        (fun r => (r.displayName, r.text))
      = [("A (1 of 3)", "t1"), ("A (2 of 3)", "t2"), ("A (3 of 3)", "t3")]) ∧
    ((entriesByText "A" initState fxPlain {} (asArray (.one "t")) ["/k/i"]).2.map
        (fun r => (r.displayName, r.text))
      = [("A", "t")]) := by
  constructor
  · have h := textRecords_spec.1 "A" initState fxPlain {} ["t1", "t2", "t3"] ["/k/i"]
      rfl (by decide)
    simpa [iterPosition, iterPositionAux] using h
  · exact textRecords_spec.2.1 "A" initState fxPlain {} "t" ["/k/i"] rfl

end NAILore
